import Mathlib

/-!
Verification of the MetricsOutput editor (process_metrics_file.py).

The worksheet is embedded as a rectangular grid of cell values; the pandas
dataframe built from it is the same grid with missing cells read as empty.
Rows and columns are 0-based (as in the dataframe); the code's 1-based
excel rows appear as `idx + 1`.
-/

/-- Cell values as produced by the loader and read by the scanners: Python
floats are modelled as rationals, strings as `text`, and an absent cell
(Python `None`) as `empty`. -/
inductive CellValue where
  | num : Rat → CellValue
  | text : String → CellValue
  | empty : CellValue
deriving DecidableEq, Repr

/-- A worksheet / dataframe: 0-based, row-major list of rows. -/
abbrev Grid := List (List CellValue)

/-- Read a cell, 0-based; missing positions read as `empty` (pandas pads
short rows with `None`). -/
def cellAt (g : Grid) (r c : Nat) : CellValue :=
  (g.getD r []).getD c .empty

/-- Number of rows of the dataframe. -/
def numRows (g : Grid) : Nat := g.length

/-- Number of columns of the dataframe (`len(self.df.columns)`): the
worksheet's max column, i.e. the longest row. -/
def numCols (g : Grid) : Nat :=
  g.foldr (fun row m => max row.length m) 0

/-- The sample columns iterated by both scanners:
`range(3, len(self.df.columns))`. -/
def sampleCols (g : Grid) : List Nat :=
  (List.range (numCols g)).drop 3

/-- Positions of cells equal to a given string, in row-major order: the
embedding of `self.df.stack().index[self.df.stack() == lbl]` (stacking
drops `None` cells, which never equal a string anyway). -/
def findAll (g : Grid) (lbl : String) : List (Nat × Nat) :=
  (g.enum.map (fun p =>
    p.2.enum.filterMap (fun q =>
      if q.2 = CellValue.text lbl then some (p.1, q.1) else none))).flatten

/-- Python `a < b` on cell values: numeric comparison between numbers,
lexicographic between strings, `TypeError` otherwise (including `None`). -/
def pyLt : CellValue → CellValue → Except String Bool
  | .num a, .num b => .ok (decide (a < b))
  | .text a, .text b => .ok (decide (a < b))
  | _, _ => .error "TypeError"

/-- Python `a > b` on cell values (same comparability rules as `pyLt`). -/
def pyGt (a b : CellValue) : Except String Bool := pyLt b a

/-! ## mark_false (StatusValidator)

`mark_false` walks the row-major list of cells equal to `"FALSE"`; for a
match outside excel row 17 it removes the output file and raises, otherwise
it highlights the cell. -/

/-- Outcome of the `mark_false` step: whether the output file is still on
disk, and the highlighted positions (`none` when the step raised). -/
structure FalseOutcome where
  fileExists : Bool
  highlights : Option (List (Nat × Nat))
deriving DecidableEq, Repr

/-- The row-major positions holding the string `"FALSE"`. -/
def falseCells (g : Grid) : List (Nat × Nat) :=
  findAll g "FALSE"

/-- The loop body of `mark_false`: per index, abort (removing the file)
when the 1-based row is not 17, otherwise highlight and continue. -/
def markFalseLoop : List (Nat × Nat) → List (Nat × Nat) → FalseOutcome
  | [], acc => ⟨true, some acc⟩
  | p :: rest, acc =>
    if p.1 + 1 = 17 then markFalseLoop rest (acc ++ [p])
    else ⟨false, none⟩

/-- Embedding of `Excel.mark_false`. -/
def markFalse (g : Grid) : FalseOutcome :=
  markFalseLoop (falseCells g) []

theorem markFalseLoop_good : ∀ (l acc : List (Nat × Nat)),
    (∀ p ∈ l, p.1 + 1 = 17) → markFalseLoop l acc = ⟨true, some (acc ++ l)⟩
  | [], acc, _ => by simp [markFalseLoop]
  | p :: rest, acc, h => by
    have hp : p.1 + 1 = 17 := h p (by simp)
    have ih := markFalseLoop_good rest (acc ++ [p])
      (fun q hq => h q (by simp [hq]))
    simp [markFalseLoop, hp, ih]

theorem markFalseLoop_bad : ∀ (l acc : List (Nat × Nat)),
    (∃ p ∈ l, p.1 + 1 ≠ 17) → markFalseLoop l acc = ⟨false, none⟩
  | [], _, h => by simp at h
  | p :: rest, acc, h => by
    by_cases hp : p.1 + 1 = 17
    · have : ∃ q ∈ rest, q.1 + 1 ≠ 17 := by
        rcases h with ⟨q, hq, hq17⟩
        rcases List.mem_cons.mp hq with rfl | hq'
        · exact absurd hp hq17
        · exact ⟨q, hq', hq17⟩
      simp [markFalseLoop, hp, markFalseLoop_bad rest (acc ++ [p]) this]
    · simp [markFalseLoop, hp]

/-- C2: if the string FALSE appears only in excel row 17, `mark_false`
completes, the file remains, and exactly those cells are highlighted;
if it appears in any other row, the step aborts and the output file is
removed before the error is raised. -/
theorem mark_false_spec (g : Grid) :
    ((∀ p ∈ falseCells g, p.1 + 1 = 17) →
      markFalse g = ⟨true, some (falseCells g)⟩) ∧
    ((∃ p ∈ falseCells g, p.1 + 1 ≠ 17) →
      (markFalse g).fileExists = false ∧ (markFalse g).highlights = none) := by
  constructor
  · intro h
    have := markFalseLoop_good (falseCells g) [] h
    simpa [markFalse] using this
  · intro h
    have := markFalseLoop_bad (falseCells g) [] h
    simp [markFalse, this]

/-- A grid whose only FALSE sits in excel row 17 (0-based row 16). -/
def statusGrid : Grid :=
  (List.replicate 16 ([] : List CellValue)) ++
    [[.text "Overall", .text "NA", .text "NA", .text "TRUE", .text "FALSE"]]

/-- Witness for `mark_false_spec` at a concrete grid. -/
theorem mark_false_spec_witness :
    markFalse statusGrid = ⟨true, some [(16, 4)]⟩ := by
  have h := (mark_false_spec statusGrid).1 (by decide)
  rw [h]
  decide

/-! ## move_rows (LayoutNormalizer)

`move_rows` computes the column letter of `max_column - 2` (a `ValueError`
when that index is below 1, and an invalid range `B16:A19` when it equals
1) and then calls openpyxl's `move_range('B16:{letter}19', cols=2)`, which
walks the cells of the range from bottom-right to top-left and re-keys each
one two columns to the right, creating absent cells as empty on the way.
No check against the worksheet's actual row count is performed. -/

/-- A worksheet viewed as a total map from 0-based position to value
(absent cells read as empty). -/
abbrev Ws := Nat → Nat → CellValue

/-- The worksheet map of a grid. -/
def wsOf (g : Grid) : Ws := fun r c => cellAt g r c

/-- openpyxl `_move_cell row col +k`: the value moves to column `c + k`
and the source cell is deleted (reads back as empty). -/
def moveOne (w : Ws) (r c k : Nat) : Ws := fun r' c' =>
  if r' = r ∧ c' = c + k then w r c
  else if r' = r ∧ c' = c then .empty
  else w r' c'

/-- Moving every listed column of one row, in list order, two to the right. -/
def moveRowCols (w : Ws) (r : Nat) (cols : List Nat) : Ws :=
  cols.foldl (fun acc c => moveOne acc r c 2) w

/-- The 0-based source columns of `B16:{letter(nC-2)}19` in processing
order: openpyxl iterates the range row-major and reverses it when moving
right, so columns run from high to low. -/
def srcColsRev (nC : Nat) : List Nat :=
  (List.range' 1 (nC - 3)).reverse

/-- The whole `move_range` call: rows 16-19 (0-based 15-18), processed
from the last row to the first. -/
def moveRangeSeq (w : Ws) (nC : Nat) : Ws :=
  [18, 17, 16, 15].foldl (fun acc r => moveRowCols acc r (srcColsRev nC)) w

/-- Embedding of `Excel.move_rows` followed by re-reading the dataframe:
errors only when the worksheet has at most 3 columns (column-letter /
range construction fails); otherwise materialises the moved worksheet.
Rows 16-19 exist afterwards even if the grid was shorter, because
`move_range` creates the cells it touches. -/
def moveRows (g : Grid) : Except String Grid :=
  if numCols g ≤ 3 then .error "ValueError"
  else
    .ok ((List.range (max (numRows g) 19)).map fun r =>
      (List.range (numCols g)).map fun c => moveRangeSeq (wsOf g) (numCols g) r c)

theorem moveOne_other (w : Ws) (r c k r' c' : Nat) (h : r' ≠ r) :
    moveOne w r c k r' c' = w r' c' := by
  simp [moveOne, h]

theorem moveRowCols_other (cols : List Nat) : ∀ (w : Ws) (r r' c' : Nat),
    r' ≠ r → moveRowCols w r cols r' c' = w r' c' := by
  induction cols with
  | nil => intro w r r' c' _; simp [moveRowCols]
  | cons c rest ih =>
    intro w r r' c' h
    simp only [moveRowCols, List.foldl_cons]
    have := ih (moveOne w r c 2) r r' c' h
    simp only [moveRowCols] at this
    rw [this, moveOne_other _ _ _ _ _ _ h]

/-- After moving columns `[j, j-1, ..., 1]` of row `r` two to the right:
targets `3..j+2` hold the old values of `1..j`, vacated sources `1..2` (up
to `j`) are empty, everything else in the row is untouched. -/
theorem moveRowCols_char (j : Nat) : ∀ (w : Ws) (r c : Nat),
    moveRowCols w r ((List.range' 1 j).reverse) r c =
      if 3 ≤ c ∧ c ≤ j + 2 then w r (c - 2)
      else if 1 ≤ c ∧ c ≤ 2 ∧ c ≤ j then .empty
      else w r c := by
  induction j with
  | zero =>
    intro w r c
    simp only [List.range', List.reverse_nil, moveRowCols, List.foldl_nil]
    have h1 : ¬(3 ≤ c ∧ c ≤ 0 + 2) := by omega
    have h2 : ¬(1 ≤ c ∧ c ≤ 2 ∧ c ≤ 0) := by omega
    rw [if_neg h1, if_neg h2]
  | succ j ih =>
    intro w r c
    rw [List.range'_1_concat]
    simp only [List.reverse_append, List.reverse_cons, List.reverse_nil,
      List.nil_append, List.singleton_append, moveRowCols, List.foldl_cons]
    have ihw := ih (moveOne w r (1 + j) 2) r c
    simp only [moveRowCols] at ihw
    rw [ihw]
    by_cases hA : 3 ≤ c ∧ c ≤ j + 2
    · rw [if_pos hA, if_pos (by omega : 3 ≤ c ∧ c ≤ j + 1 + 2)]
      have hne1 : c - 2 ≠ 1 + j + 2 := by omega
      have hne2 : c - 2 ≠ 1 + j := by omega
      simp [moveOne, hne1, hne2]
    · by_cases hB : c = j + 3
      · rw [if_neg hA, if_neg (by omega : ¬(1 ≤ c ∧ c ≤ 2 ∧ c ≤ j)),
          if_pos (by omega : 3 ≤ c ∧ c ≤ j + 1 + 2)]
        have hc : c = 1 + j + 2 := by omega
        have hc2 : c - 2 = 1 + j := by omega
        simp [moveOne, hc, hc2]
      · by_cases hC : 1 ≤ c ∧ c ≤ 2 ∧ c ≤ j
        · rw [if_neg hA, if_pos hC, if_neg (by omega : ¬(3 ≤ c ∧ c ≤ j + 1 + 2)),
            if_pos (by omega : 1 ≤ c ∧ c ≤ 2 ∧ c ≤ j + 1)]
        · by_cases hD : c = j + 1 ∧ c ≤ 2
          · rw [if_neg hA, if_neg hC, if_neg (by omega : ¬(3 ≤ c ∧ c ≤ j + 1 + 2)),
              if_pos (by omega : 1 ≤ c ∧ c ≤ 2 ∧ c ≤ j + 1)]
            have h1 : ¬(c = 1 + j + 2) := by omega
            have h2 : c = 1 + j := by omega
            simp [moveOne, h1, h2]
          · rw [if_neg hA, if_neg hC, if_neg (by omega : ¬(3 ≤ c ∧ c ≤ j + 1 + 2)),
              if_neg (by omega : ¬(1 ≤ c ∧ c ≤ 2 ∧ c ≤ j + 1))]
            have h1 : ¬(c = 1 + j + 2) := by omega
            have h2 : ¬(c = 1 + j) := by omega
            simp [moveOne, h1, h2]

/-- Full characterization of the `move_range('B16:...19', cols=2)` call on
the worksheet map: inside 0-based rows 15-18, columns from 3 up to the last
moved target hold the value from two columns left, the vacated source
columns 1-2 are empty, and everything else is untouched. -/
theorem moveRangeSeq_char (w : Ws) (nC r c : Nat) :
    moveRangeSeq w nC r c =
      if 15 ≤ r ∧ r ≤ 18 then
        (if 3 ≤ c ∧ c ≤ (nC - 3) + 2 then w r (c - 2)
         else if 1 ≤ c ∧ c ≤ 2 ∧ c ≤ nC - 3 then .empty
         else w r c)
      else w r c := by
  simp only [moveRangeSeq, List.foldl_cons, List.foldl_nil, srcColsRev]
  by_cases h15 : r = 15
  · subst h15
    have e3 : ∀ x, moveRowCols (moveRowCols (moveRowCols w 18
        ((List.range' 1 (nC - 3)).reverse)) 17 ((List.range' 1 (nC - 3)).reverse))
        16 ((List.range' 1 (nC - 3)).reverse) 15 x = w 15 x := fun x => by
      rw [moveRowCols_other _ _ 16 15 x (by omega),
        moveRowCols_other _ _ 17 15 x (by omega),
        moveRowCols_other _ _ 18 15 x (by omega)]
    rw [moveRowCols_char (nC - 3), e3, e3, if_pos (by omega : 15 ≤ 15 ∧ 15 ≤ 18)]
  · by_cases h16 : r = 16
    · subst h16
      have e2 : ∀ x, moveRowCols (moveRowCols w 18
          ((List.range' 1 (nC - 3)).reverse)) 17 ((List.range' 1 (nC - 3)).reverse)
          16 x = w 16 x := fun x => by
        rw [moveRowCols_other _ _ 17 16 x (by omega),
          moveRowCols_other _ _ 18 16 x (by omega)]
      rw [moveRowCols_other _ _ 15 16 c (by omega), moveRowCols_char (nC - 3),
        e2, e2, if_pos (by omega : 15 ≤ 16 ∧ 16 ≤ 18)]
    · by_cases h17 : r = 17
      · subst h17
        have e1 : ∀ x, moveRowCols w 18 ((List.range' 1 (nC - 3)).reverse) 17 x
            = w 17 x := fun x => moveRowCols_other _ _ 18 17 x (by omega)
        rw [moveRowCols_other _ _ 15 17 c (by omega),
          moveRowCols_other _ _ 16 17 c (by omega), moveRowCols_char (nC - 3),
          e1, e1, if_pos (by omega : 15 ≤ 17 ∧ 17 ≤ 18)]
      · by_cases h18 : r = 18
        · subst h18
          rw [moveRowCols_other _ _ 15 18 c (by omega),
            moveRowCols_other _ _ 16 18 c (by omega),
            moveRowCols_other _ _ 17 18 c (by omega), moveRowCols_char (nC - 3),
            if_pos (by omega : 15 ≤ 18 ∧ 18 ≤ 18)]
        · rw [moveRowCols_other _ _ 15 r c (by omega),
            moveRowCols_other _ _ 16 r c (by omega),
            moveRowCols_other _ _ 17 r c (by omega),
            moveRowCols_other _ _ 18 r c (by omega),
            if_neg (by omega : ¬(15 ≤ r ∧ r ≤ 18))]

/-- Whether a step of the pipeline completed without raising. -/
def isOkE {ε α : Type} : Except ε α → Bool
  | .ok _ => true
  | .error _ => false

/-- Reading a cell of a grid materialised from a function. -/
theorem cellAt_mk (R C : Nat) (f : Nat → Nat → CellValue) (r c : Nat)
    (hr : r < R) (hc : c < C) :
    cellAt ((List.range R).map fun i => (List.range C).map fun j => f i j) r c
      = f r c := by
  simp [cellAt, List.getD_eq_getElem?_getD, List.getElem?_map,
    List.getElem?_range hr, List.getElem?_range hc]

/-- Column count of a grid whose rows all have the same length. -/
theorem numCols_of_const : ∀ (l : Grid) (nC : Nat), l ≠ [] →
    (∀ row ∈ l, row.length = nC) → numCols l = nC
  | [], _, hne, _ => absurd rfl hne
  | row :: rest, nC, _, hlen => by
    have hrow : row.length = nC := hlen row (by simp)
    match hr : rest with
    | [] => simp [numCols, hrow]
    | q :: rest' =>
      have := numCols_of_const (q :: rest') nC (by simp)
        (fun s hs => hlen s (by simp [hs]))
      simp [numCols] at this ⊢
      simp [hrow, this]

/-- A small grid: two rows, four columns — fewer rows than the configured
source range 16-19. -/
def gSmall : Grid :=
  [[.num 1, .num 2, .num 3, .num 4], [.num 5, .num 6, .num 7, .num 8]]

/-- C7 counterexample: on a grid with only 2 rows — fewer than the
configured row range 16-19 — `move_rows` does not fail: it completes
normally (openpyxl simply creates the missing cells as empty), so no
structural error is reported. -/
theorem move_rows_small_grid_ok :
    numRows gSmall = 2 ∧ isOkE (moveRows gSmall) = true := by
  constructor
  · rfl
  · rw [moveRows, if_neg (by decide : ¬(numCols gSmall ≤ 3))]
    rfl

/-- C7 amended: `move_rows` performs no row-range validation at all; it
completes on any grid with at least 4 columns regardless of the row count,
and errors exactly when the grid has at most 3 columns (the column-letter
or range construction fails). -/
theorem move_rows_err_iff (g : Grid) :
    (4 ≤ numCols g → isOkE (moveRows g) = true) ∧
    (numCols g ≤ 3 → isOkE (moveRows g) = false) := by
  constructor
  · intro h
    rw [moveRows, if_neg (by omega : ¬(numCols g ≤ 3))]
    rfl
  · intro h
    rw [moveRows, if_pos h]
    rfl

/-- Witness for `move_rows_err_iff` at a concrete grid. -/
theorem move_rows_err_iff_witness :
    4 ≤ numCols gSmall ∧ isOkE (moveRows gSmall) = true :=
  ⟨by decide, (move_rows_err_iff gSmall).1 (by decide)⟩

/-- C8: on any grid of the normalized shape (at least the 19 rows of the
source range and at least 4 columns), `move_rows` preserves the dimensions
and produces exactly the shift: inside rows 16-19 every column from D on
holds the value from two columns left, the vacated columns B-C are empty
(the Missing/NA-sentinel cell value), and every other cell is unchanged. -/
theorem move_rows_shift (g : Grid) (h1 : 19 ≤ numRows g) (h2 : 4 ≤ numCols g) :
    ∃ g', moveRows g = .ok g' ∧ numRows g' = numRows g ∧
      numCols g' = numCols g ∧
      ∀ r c, r < numRows g → c < numCols g →
        cellAt g' r c =
          if 15 ≤ r ∧ r ≤ 18 then
            (if 3 ≤ c then cellAt g r (c - 2)
             else if 1 ≤ c ∧ c + 3 ≤ numCols g then .empty
             else cellAt g r c)
          else cellAt g r c := by
  refine ⟨(List.range (max (numRows g) 19)).map fun r =>
    (List.range (numCols g)).map fun c => moveRangeSeq (wsOf g) (numCols g) r c,
    ?_, ?_, ?_, ?_⟩
  · rw [moveRows, if_neg (by omega : ¬(numCols g ≤ 3))]
  · simp only [numRows, List.length_map, List.length_range] at h1 ⊢
    omega
  · apply numCols_of_const _ (numCols g)
    · simp only [numRows] at h1
      simp [List.map_eq_nil_iff, List.range_eq_nil]
    · intro row hrow
      rcases List.mem_map.mp hrow with ⟨i, _, rfl⟩
      simp
  · intro r c hr hc
    rw [cellAt_mk _ _ _ r c (by omega) hc, moveRangeSeq_char]
    by_cases hrow : 15 ≤ r ∧ r ≤ 18
    · rw [if_pos hrow, if_pos hrow]
      by_cases h3 : 3 ≤ c
      · rw [if_pos (by omega : 3 ≤ c ∧ c ≤ (numCols g - 3) + 2), if_pos h3]
        rfl
      · rw [if_neg (by omega : ¬(3 ≤ c ∧ c ≤ (numCols g - 3) + 2)),
          if_neg h3]
        by_cases hv : 1 ≤ c ∧ c + 3 ≤ numCols g
        · rw [if_pos (by omega : 1 ≤ c ∧ c ≤ 2 ∧ c ≤ numCols g - 3), if_pos hv]
        · rw [if_neg (by omega : ¬(1 ≤ c ∧ c ≤ 2 ∧ c ≤ numCols g - 3)),
            if_neg hv]
          rfl
    · rw [if_neg hrow, if_neg hrow]
      rfl

/-- A 19-row, 4-column grid used as the witness input. -/
def gW : Grid :=
  List.replicate 19 [.num 1, .num 2, .num 3, .num 4]

/-- Witness for `move_rows_shift` at a concrete grid. -/
theorem move_rows_shift_witness :
    19 ≤ numRows gW ∧ 4 ≤ numCols gW ∧
      (∃ g', moveRows gW = .ok g' ∧ numRows g' = numRows gW ∧
        numCols g' = numCols gW ∧
        ∀ r c, r < numRows gW → c < numCols gW →
          cellAt g' r c =
            if 15 ≤ r ∧ r ≤ 18 then
              (if 3 ≤ c then cellAt gW r (c - 2)
               else if 1 ≤ c ∧ c + 3 ≤ numCols gW then .empty
               else cellAt gW r c)
            else cellAt gW r c) :=
  ⟨by decide, by decide, move_rows_shift gW (by decide) (by decide)⟩

/-! ## mark_other_metrics (ThresholdScanner)

For each sample column and each configured metric label, every occurrence
of the label yields a row whose limits sit at offsets +1 and +2; the
branch ladder of lines 193-210 decides whether the sample cell is
highlighted, raising `TypeError` on an incomparable Python comparison. -/

/-- The configured metric labels of `mark_other_metrics`. -/
def metricsToFind : List String :=
  ["MEDIAN_INSERT_SIZE (bp)",
   "MEDIAN_EXON_COVERAGE (Count)",
   "PCT_EXON_50X (%)",
   "USABLE_MSI_SITES (Count)",
   "COVERAGE_MAD (Count)",
   "MEDIAN_BIN_COUNT_CNV_TARGET (Count)",
   "MEDIAN_CV_GENE_500X (%)",
   "TOTAL_ON_TARGET_READS (Count)",
   "MEDIAN_INSERT_SIZE (Count)"]

/-- The branch ladder of lines 193-210, deciding one (metric row, sample)
cell: `pass` when both limits are the string NA; one-sided `>`/`<` checks
when exactly one limit is NA and the sample value is not NA; otherwise the
two-sided check, with Python's short-circuit `or`. -/
def otherDecision (lsl usl sv : CellValue) : Except String Bool :=
  if lsl = .text "NA" ∧ usl = .text "NA" then .ok false
  else if lsl = .text "NA" ∧ sv ≠ .text "NA" then pyGt sv usl
  else if usl = .text "NA" ∧ sv ≠ .text "NA" then pyLt sv lsl
  else if sv ≠ .text "NA" then do
    let b1 ← pyLt sv lsl
    if b1 then pure true else pyGt sv usl
  else .ok false

/-- One found metric occurrence for one sample column: read the limits at
offsets +1/+2 and the sample value, then decide and possibly highlight. -/
def scanMetricAt (g : Grid) (s : Nat) (acc : List (Nat × Nat))
    (idx : Nat × Nat) : Except String (List (Nat × Nat)) := do
  let lsl := cellAt g idx.1 (idx.2 + 1)
  let usl := cellAt g idx.1 (idx.2 + 2)
  let sv := cellAt g idx.1 s
  let b ← otherDecision lsl usl sv
  pure (if b then acc ++ [(idx.1, s)] else acc)

/-- Embedding of `Excel.mark_other_metrics`: sample columns outermost,
then the metric list, then every occurrence of the metric. -/
def markOtherMetrics (g : Grid) : Except String (List (Nat × Nat)) :=
  (sampleCols g).foldlM (fun acc s =>
    metricsToFind.foldlM (fun acc2 m =>
      (findAll g m).foldlM (scanMetricAt g s) acc2) acc) []

/-- A one-metric-row grid: label in column 0, limits in columns 1-2, a
single sample value in column 3. -/
def mkMetricGrid (lbl : String) (lsl usl v : CellValue) : Grid :=
  [[.text lbl, lsl, usl, v]]

deriving instance DecidableEq for Except

/-- C4: for a metric row with both limits numeric and a numeric sample
value, the cell is flagged iff the value is strictly below the lower or
strictly above the upper limit; values equal to a limit are not flagged. -/
theorem other_metrics_two_sided (L U v : Rat) :
    markOtherMetrics (mkMetricGrid "MEDIAN_INSERT_SIZE (bp)"
        (.num L) (.num U) (.num v)) =
      .ok (if v < L ∨ U < v then [(0, 3)] else []) := by
  simp only [markOtherMetrics, mkMetricGrid, sampleCols, numCols, metricsToFind,
    findAll, scanMetricAt, otherDecision, pyLt, pyGt, cellAt, List.foldlM, bind,
    Except.bind, Functor.map, Except.map, pure, Except.pure]
  simp
  split_ifs <;> simp_all
  rcases ‹v < L ∨ U < v› with hlt | hgt
  · exact absurd hlt (not_lt.mpr ‹L ≤ v›)
  · exact hgt

/-- C5: one-sided rules — with the lower limit NA the cell is flagged iff
the value exceeds the upper limit; with the upper limit NA iff it is below
the lower limit; with both limits NA nothing is flagged. -/
theorem other_metrics_one_sided (L U v : Rat) :
    markOtherMetrics (mkMetricGrid "PCT_EXON_50X (%)"
        (.text "NA") (.num U) (.num v)) =
      .ok (if U < v then [(0, 3)] else []) ∧
    markOtherMetrics (mkMetricGrid "PCT_EXON_50X (%)"
        (.num L) (.text "NA") (.num v)) =
      .ok (if v < L then [(0, 3)] else []) ∧
    markOtherMetrics (mkMetricGrid "PCT_EXON_50X (%)"
        (.text "NA") (.text "NA") (.num v)) = .ok [] := by
  refine ⟨?_, ?_, ?_⟩ <;>
  · simp only [markOtherMetrics, mkMetricGrid, sampleCols, numCols, metricsToFind,
      findAll, scanMetricAt, otherDecision, pyLt, pyGt, cellAt, List.foldlM, bind,
      Except.bind, Functor.map, Except.map, pure, Except.pure]
    simp

/-- C6: a text sample value that is not NA in a metric row with numeric
limits makes the Python comparison `str < float` raise `TypeError`, so the
scanner pass aborts instead of skipping the cell. -/
theorem other_metrics_text_value_raises :
    markOtherMetrics (mkMetricGrid "MEDIAN_INSERT_SIZE (bp)"
        (.num 100) (.num 500) (.text "abc")) = .error "TypeError" := by
  decide

/-! ## mark_contamination_metrics (CombinedMetricScanner)

The Python loop keeps `value_to_compare`, `LSL`, `USL` and
`sample_to_highlight` as function-level locals that survive between loop
iterations; using one before it is bound raises `NameError`. The check
after each element's index loop `break`s out of the element loop when the
value is numerically within the limits. -/

/-- The local variables of `mark_contamination_metrics`; `none` is an
unbound Python name. -/
structure CState where
  vtc : Option CellValue
  lsl : Option CellValue
  usl : Option CellValue
  sth : Option Bool
deriving DecidableEq, Repr

/-- The contamination pair labels. -/
def contamElems : List String :=
  ["CONTAMINATION_SCORE (NA)", "CONTAMINATION_P_VALUE (NA)"]

/-- Reading a Python local: `NameError` when unbound. -/
def getVar {α : Type} : Option α → Except String α
  | some v => .ok v
  | none => .error "NameError"

/-- Body of the inner `for idx in indices` loop: always rebinds
`value_to_compare`; rebinds `LSL`/`USL` only when the label was found in
column 0. -/
def contamStepIdx (g : Grid) (s : Nat) (st : CState) (idx : Nat × Nat) :
    CState :=
  let st1 := { st with vtc := some (cellAt g idx.1 s) }
  if idx.2 = 0 then
    { st1 with lsl := some (cellAt g idx.1 1), usl := some (cellAt g idx.1 2) }
  else st1

/-- The check after the index loop (lines 147-153): NA never violates; a
violating value sets the flag and continues; an in-range value clears the
flag and `break`s. The boolean result reports whether the loop broke. -/
def contamCheck (st : CState) : Except String (CState × Bool) := do
  let v ← getVar st.vtc
  if v = .text "NA" then .ok ({ st with sth := some false }, false)
  else do
    let l ← getVar st.lsl
    let b1 ← pyLt v l
    let b2 ← if b1 then pure true else do
      let u ← getVar st.usl
      pyGt v u
    if b2 then .ok ({ st with sth := some true }, false)
    else .ok ({ st with sth := some false }, true)

/-- The `for element in elements_to_find` loop with its `break`. -/
def contamElemLoop (g : Grid) (s : Nat) :
    List String → CState → Except String CState
  | [], st => .ok st
  | e :: rest, st => do
    let st1 := (findAll g e).foldl (contamStepIdx g s) st
    let (st2, broke) ← contamCheck st1
    if broke then .ok st2 else contamElemLoop g s rest st2

/-- The highlight block (lines 156-162): every occurrence of either label
is highlighted at the sample column. -/
def contamHighlights (g : Grid) (s : Nat) : List (Nat × Nat) :=
  (contamElems.map (fun e => (findAll g e).map (fun idx => (idx.1, s)))).flatten

/-- One sample column of `mark_contamination_metrics`, threading the
persistent locals. -/
def contamSamplePass (g : Grid) (s : Nat) (st : CState) :
    Except String (CState × List (Nat × Nat)) := do
  let st1 ← contamElemLoop g s contamElems st
  match st1.sth with
  | none => .error "NameError"
  | some true => .ok (st1, contamHighlights g s)
  | some false => .ok (st1, [])

/-- Embedding of `Excel.mark_contamination_metrics`. -/
def markContaminationMetrics (g : Grid) : Except String (List (Nat × Nat)) := do
  let r ← (sampleCols g).foldlM
    (fun (p : CState × List (Nat × Nat)) s => do
      let q ← contamSamplePass g s p.1
      pure (q.1, p.2 ++ q.2)) (⟨none, none, none, none⟩, [])
  pure r.2

/-- A contamination pair: both rows carry the shared limits in columns
1-2, and one sample column 3 holds the two measurements. -/
def mkContamGrid (l u : Rat) (v1 v2 : CellValue) : Grid :=
  [[.text "CONTAMINATION_SCORE (NA)", .num l, .num u, v1],
   [.text "CONTAMINATION_P_VALUE (NA)", .num l, .num u, v2]]

theorem contamCheck_num (v l u : Rat) (o : Option Bool) :
    contamCheck ⟨some (.num v), some (.num l), some (.num u), o⟩ =
      if v < l ∨ u < v then
        .ok (⟨some (.num v), some (.num l), some (.num u), some true⟩, false)
      else
        .ok (⟨some (.num v), some (.num l), some (.num u), some false⟩, true) := by
  simp only [contamCheck, getVar, pyLt, pyGt, bind, Except.bind, pure, Except.pure]
  by_cases h1 : v < l <;> by_cases h2 : u < v <;> simp [h1, h2]

theorem contamCheck_na (x y : Option CellValue) (o : Option Bool) :
    contamCheck ⟨some (.text "NA"), x, y, o⟩ =
      .ok (⟨some (.text "NA"), x, y, some false⟩, false) := by
  simp [contamCheck, getVar, bind, Except.bind, pure, Except.pure]

/-- C1 amended: for numeric measurements with shared limits, both cells
are flagged iff BOTH the score and the p_value fall outside the limits.
The in-range `break` of the element loop means a score within limits
suppresses the flag even when the p_value violates. -/
theorem contamination_pair_rule (l u a b : Rat) :
    markContaminationMetrics (mkContamGrid l u (.num a) (.num b)) =
      .ok (if (a < l ∨ u < a) ∧ (b < l ∨ u < b) then [(0, 3), (1, 3)] else []) := by
  have hf1 : findAll (mkContamGrid l u (.num a) (.num b))
      "CONTAMINATION_SCORE (NA)" = [(0, 0)] := rfl
  have hf2 : findAll (mkContamGrid l u (.num a) (.num b))
      "CONTAMINATION_P_VALUE (NA)" = [(1, 0)] := rfl
  have hsc : sampleCols (mkContamGrid l u (.num a) (.num b)) = [3] := rfl
  simp only [markContaminationMetrics, hsc, List.foldlM_cons, List.foldlM_nil,
    contamSamplePass, contamElemLoop, contamElems, hf1, hf2,
    List.foldl_cons, List.foldl_nil, bind, Except.bind, pure, Except.pure,
    contamStepIdx, contamHighlights, List.map_cons, List.map_nil, List.flatten,
    cellAt]
  simp only [mkContamGrid, List.getD_eq_getElem?_getD, List.getElem?_cons_zero,
    List.getElem?_cons_succ, Option.getD_some]
  simp
  rw [contamCheck_num]
  by_cases hS : a < l ∨ u < a
  · rw [if_pos hS]
    simp only [Bool.false_eq_true, if_false]
    rw [contamCheck_num]
    by_cases hP : b < l ∨ u < b
    · rw [if_pos hP, if_pos ⟨hS, hP⟩]
    · rw [if_neg hP, if_neg (by tauto : ¬((a < l ∨ u < a) ∧ (b < l ∨ u < b)))]
  · rw [if_neg hS, if_neg (by tauto : ¬((a < l ∨ u < a) ∧ (b < l ∨ u < b)))]
    simp

/-- C1 counterexample: with shared limits [0, 2], a score of 1 (within
limits) and a p_value of 5 (outside), the pass flags nothing — the claim
that both cells are flagged whenever either measurement violates fails. -/
theorem contamination_either_cex :
    ((0 : Rat) ≤ 1 ∧ (1 : Rat) ≤ 2) ∧ ¬((5 : Rat) ≤ 2) ∧
    markContaminationMetrics (mkContamGrid 0 2 (.num 1) (.num 5)) = .ok [] := by
  exact ⟨by decide, by decide, by decide⟩

/-- C3 counterexample: an NA score together with an out-of-range p_value
flags BOTH cells — including the cell whose value is the NA sentinel. -/
theorem contamination_na_cell_flagged :
    cellAt (mkContamGrid 0 2 (.text "NA") (.num 5)) 0 3 = .text "NA" ∧
    markContaminationMetrics (mkContamGrid 0 2 (.text "NA") (.num 5)) =
      .ok [(0, 3), (1, 3)] := by
  exact ⟨rfl, by decide⟩

/-- C3 amended: in `mark_other_metrics` an NA sample value is never
flagged, whatever the limits; in `mark_contamination_metrics` an NA
measurement never counts as a violation by itself (two NA measurements
flag nothing), but an NA cell can still be flagged jointly with its
partner, as `contamination_na_cell_flagged` shows. -/
theorem na_value_rule :
    (∀ lsl usl : CellValue, otherDecision lsl usl (.text "NA") = .ok false) ∧
    (∀ l u : Rat,
      markContaminationMetrics (mkContamGrid l u (.text "NA") (.text "NA")) =
        .ok []) := by
  constructor
  · intro lsl usl
    simp [otherDecision]
  · intro l u
    rfl

/-- C9: on a grid without the contamination labels the contamination pass
raises `NameError` (`value_to_compare` is used before any binding), while
`mark_other_metrics` tolerates its missing labels and completes. -/
theorem missing_metric_behaviour :
    markContaminationMetrics
      [[.text "MEDIAN_INSERT_SIZE (bp)", .num 100, .num 500, .num 300]] =
      .error "NameError" ∧
    isOkE (markOtherMetrics
      [[.text "MEDIAN_INSERT_SIZE (bp)", .num 100, .num 500, .num 300]]) = true := by
  exact ⟨by decide, by decide⟩

/-! ## tsv_to_excel field coercion

Lines 252-262 try `float(item)`, then `int(item)`, then keep the string.
The acceptance of Python's `float()` and `int()` string parsers is
modelled from CPython's documented literal grammar (ASCII): optional
surrounding whitespace, an optional sign, then for `int()` a digit run
with single underscores between digits, and for `float()` a mantissa with
optional fraction and exponent, or an infinity/nan word. -/

/-- Whitespace stripped by the Python numeric constructors. -/
def isPySpace (c : Char) : Bool :=
  c == ' ' || c == '\t' || c == '\n' || c == '\r' || c == '\x0b' || c == '\x0c'

/-- Strip leading and trailing whitespace. -/
def stripPyWs (l : List Char) : List Char :=
  ((l.dropWhile isPySpace).reverse.dropWhile isPySpace).reverse

/-- Drop one optional leading sign. -/
def signBody : List Char → List Char
  | '+' :: rest => rest
  | '-' :: rest => rest
  | l => l

/-- Consume the rest of a digit run after its first digit: digits, with a
single underscore only between digits; returns the unconsumed suffix. -/
def takeDigitsAux : List Char → List Char
  | '_' :: c :: rest =>
    if c.isDigit then takeDigitsAux rest else '_' :: c :: rest
  | c :: rest => if c.isDigit then takeDigitsAux rest else c :: rest
  | [] => []

/-- Consume a digit run (at least one digit); `none` when the input does
not start with a digit. -/
def takeDigits : List Char → Option (List Char)
  | c :: rest => if c.isDigit then some (takeDigitsAux rest) else none
  | [] => none

/-- An entire string of digits (with legal underscores). -/
def digitRun (l : List Char) : Bool :=
  decide (takeDigits l = some [])

/-- Acceptance of CPython `int(str)`. -/
def pyIntAccepts (s : String) : Bool :=
  digitRun (signBody (stripPyWs s.toList))

/-- An exponent tail: optional sign then a digit run. -/
def expOK (l : List Char) : Bool := digitRun (signBody l)

/-- What may follow a complete mantissa: nothing, or an exponent. -/
def afterMant : List Char → Bool
  | [] => true
  | 'e' :: r => expOK r
  | 'E' :: r => expOK r
  | _ => false

/-- A float mantissa with optional fraction, then an optional exponent:
`digits [. [digits]] | . digits`. -/
def mantissa (l : List Char) : Bool :=
  match takeDigits l with
  | some rest =>
    match rest with
    | '.' :: r2 =>
      (match takeDigits r2 with
       | some rest2 => afterMant rest2
       | none => afterMant r2)
    | _ => afterMant rest
  | none =>
    match l with
    | '.' :: r2 =>
      (match takeDigits r2 with
       | some rest2 => afterMant rest2
       | none => false)
    | _ => false

/-- Acceptance of CPython `float(str)`. -/
def pyFloatAccepts (s : String) : Bool :=
  let b := signBody (stripPyWs s.toList)
  let lb := b.map Char.toLower
  (lb == "inf".toList) || (lb == "infinity".toList) || (lb == "nan".toList)
    || mantissa b

/-- One coerced tsv field, tagged with the branch that produced it. -/
inductive TsvField where
  | pyFloat : String → TsvField
  | pyInt : String → TsvField
  | pyStr : String → TsvField
deriving DecidableEq, Repr

/-- The three-branch coercion of `tsv_to_excel`: float if `float()`
accepts, else int if `int()` accepts, else the raw string. -/
def coerceField (s : String) : TsvField :=
  if pyFloatAccepts s then .pyFloat s
  else if pyIntAccepts s then .pyInt s
  else .pyStr s

/-- The two-branch coercion the claim compares against. -/
def coerceTwoBranch (s : String) : TsvField :=
  if pyFloatAccepts s then .pyFloat s else .pyStr s

/-- Every string `int()` accepts is also accepted by `float()`: a pure
digit run (with optional sign and whitespace) is a valid float mantissa
with no fraction and no exponent. -/
theorem int_accepts_float (s : String) (h : pyIntAccepts s = true) :
    pyFloatAccepts s = true := by
  unfold pyIntAccepts digitRun at h
  rw [decide_eq_true_eq] at h
  simp only [pyFloatAccepts, mantissa]
  rw [h]
  simp [afterMant]

/-- Witness for `int_accepts_float` at a concrete string. -/
theorem int_accepts_float_witness :
    pyIntAccepts "42" = true ∧ pyFloatAccepts "42" = true :=
  ⟨by decide, int_accepts_float "42" (by decide)⟩

/-- C10: the `int()` fallback branch of the coercion is dead — the
three-branch coercion equals the two-branch one, and no field is ever
tagged as an int. -/
theorem coercion_int_branch_dead (s : String) :
    coerceField s = coerceTwoBranch s ∧ ∀ t : String, coerceField s ≠ .pyInt t := by
  unfold coerceField coerceTwoBranch
  by_cases hf : pyFloatAccepts s = true
  · rw [if_pos hf, if_pos hf]
    exact ⟨rfl, fun t h => TsvField.noConfusion h⟩
  · have hi : ¬ pyIntAccepts s = true := fun h => hf (int_accepts_float s h)
    rw [if_neg hf, if_neg hf, if_neg hi]
    exact ⟨rfl, fun t h => TsvField.noConfusion h⟩

/-- Concrete behaviour of the modelled parsers on sample fields. -/
theorem parser_model_examples :
    pyFloatAccepts "0.05" = true ∧ pyFloatAccepts "-1e3" = true ∧
    pyFloatAccepts "NA" = false ∧ pyIntAccepts "0.05" = false ∧
    coerceField "NA" = .pyStr "NA" ∧ coerceField "12" = .pyFloat "12" := by
  decide
